import Mathlib

/-!
Verification development for the Synthaura.js v2.0 BGM engine.

The definitions below are a shallow embedding of the generative-music
scheduler (`SynthauraBGM`) of the repository: section map, tick/bar
advance, scale-frequency lookup, the per-part pattern functions, the
sidechain automation issued by a kick, the idempotent cleanup closure,
and a transition system for the transport (start/stop/pulse/switchTrack).
Times, frequencies and gains are modelled as rationals; JS `%` (truncated
remainder) and `Math.floor` division are modelled with `Int.tmod` and
`Int.fdiv`.
-/

namespace Synthaura

/-- A section of the song: a half-open range of bar indices.
`SECTIONS.OUTRO.end` is `Infinity` in the source, modelled as `⊤`. -/
structure SectionRange where
  start : ℕ
  stop : WithTop ℕ
deriving DecidableEq

/-- The six section names of the `SECTIONS` table. -/
inductive SectionName
  | INTRO | VERSE | CHORUS | BREAKDOWN | BUILD | OUTRO
deriving DecidableEq, Repr

/-- The `SECTIONS` table of the source:
INTRO [0,8), VERSE [8,16), CHORUS [16,32), BREAKDOWN [32,40),
BUILD [40,48), OUTRO [48,∞). -/
def SECTIONS : SectionName → SectionRange
  | .INTRO     => ⟨0, 8⟩
  | .VERSE     => ⟨8, 16⟩
  | .CHORUS    => ⟨16, 32⟩
  | .BREAKDOWN => ⟨32, 40⟩
  | .BUILD     => ⟨40, 48⟩
  | .OUTRO     => ⟨48, ⊤⟩

/-- Bar `b` lies in section `s`: `start ≤ b < end` (half-open;
`b < Infinity` is always true, as in JS). -/
def inSection (b : ℕ) (s : SectionName) : Prop :=
  (SECTIONS s).start ≤ b ∧ (b : WithTop ℕ) < (SECTIONS s).stop

instance (b : ℕ) (s : SectionName) : Decidable (inSection b s) := by
  unfold inSection; infer_instance

/-- The tick/bar advance step at the bottom of the scheduler loop:
`if (++this.tick >= 16) { this.tick = 0; this.measure++; }`.
The pair is `(tick, measure)`. -/
def advance (s : ℕ × ℕ) : ℕ × ℕ :=
  if s.1 + 1 ≥ 16 then (0, s.2 + 1) else (s.1 + 1, s.2)

/-- `advance` applied `n` times. -/
def advanceN : ℕ → ℕ × ℕ → ℕ × ℕ
  | 0, s => s
  | n + 1, s => advanceN n (advance s)

/-- The `mainTheme` scale of the v2.0 source (7 degrees). -/
def mainThemeScale : List ℚ :=
  [130.81, 146.83, 155.56, 174.61, 196.00, 207.65, 233.08]

/-- The `ambient` scale of the v2.0 source (4 degrees). -/
def ambientScale : List ℚ := [233.08, 207.65, 174.61, 155.56]

/-- The engine's scale table `this.scales`. -/
def scales (name : String) : Option (List ℚ) :=
  if name = "mainTheme" then some mainThemeScale
  else if name = "ambient" then some ambientScale
  else none

/-- JS `((index % len) + len) % len` with `%` the truncated remainder. -/
def jsFloorMod (i n : ℤ) : ℤ := (i.tmod n + n).tmod n

/-- `getFreq(scaleName, index)`:
`scale[((index % len) + len) % len] * Math.pow(2, Math.floor(index / len))`,
with fallback `440` for an unknown scale. `Math.floor(index / len)` is
floor division, `Int.fdiv`. -/
def getFreq (name : String) (index : ℤ) : ℚ :=
  match scales name with
  | none => 440
  | some scale =>
    let len : ℤ := scale.length
    scale.getD (jsFloorMod index len).toNat 0 * (2 : ℚ) ^ (index.fdiv len)

/-- The fixed 16-step melody of `_playLead`; `-1` is the silence marker. -/
def melody : List ℤ := [7, -1, 7, 8, 7, 4, 2, 0, -1, 2, 4, 2, 0, -1, -1, -1]

/-- Whether `_playDrums` emits a kick at `(tick, bar)` on the main-theme
track. The drums return early before VERSE
(`if (bar < SECTIONS.VERSE.start) return`), then
`if (!isBreakdown && tick % 4 === 0) this._playKick(time)`. -/
def kickAt (tick bar : ℕ) : Bool :=
  if bar < (SECTIONS .VERSE).start then false
  else
    let isBreakdown := decide ((SECTIONS .BREAKDOWN).start ≤ bar) &&
      decide ((bar : WithTop ℕ) < (SECTIONS .BREAKDOWN).stop)
    !isBreakdown && decide (tick % 4 = 0)

/-- The lead voice `_playLead` emits at `(tick, bar)` on the main-theme
track: `some f` when an FM lead of frequency `f` is scheduled, `none`
otherwise. In the BREAKDOWN branch the source draws a random degree;
`rand` stands for `Math.floor(Math.random() * 4)`. -/
def leadVoice (rand : ℕ) (tick bar : ℕ) : Option ℚ :=
  if ((SECTIONS .CHORUS).start ≤ bar ∧ (bar : WithTop ℕ) < (SECTIONS .CHORUS).stop) ∨
      (SECTIONS .OUTRO).start ≤ bar then
    let noteVal := (melody[tick]?).getD (-1)
    if noteVal ≠ -1 then
      some (getFreq "mainTheme"
        (noteVal + if (SECTIONS .OUTRO).start ≤ bar then 7 else 0))
    else none
  else if ((SECTIONS .BREAKDOWN).start ≤ bar ∧
        (bar : WithTop ℕ) < (SECTIONS .BREAKDOWN).stop) ∧ tick % 4 = 0 then
    some (getFreq "mainTheme" ((([0, 2, 4, 7] : List ℤ)[rand % 4]?).getD 0 + 7))
  else none

/-- Shape of a gain-automation breakpoint. -/
inductive RampShape
  | instant | linearRamp | expRamp
deriving DecidableEq, Repr

/-- A scheduled automation breakpoint on an audio parameter. -/
structure AutoPoint where
  time : ℚ
  value : ℚ
  shape : RampShape
deriving DecidableEq, Repr

/-- A call into the parameter-automation API. -/
inductive AutoCmd
  | cancel (t : ℚ)
  | point (p : AutoPoint)
deriving DecidableEq, Repr

/-- Semantics of one automation call on the pending-breakpoint list:
`cancelScheduledValues(t)` removes every breakpoint with time ≥ `t`;
a set/ramp call appends its breakpoint. -/
def applyCmd (sched : List AutoPoint) : AutoCmd → List AutoPoint
  | .cancel t => sched.filter (fun p => decide (p.time < t))
  | .point p => sched ++ [p]

/-- Apply a sequence of automation calls in order. -/
def applyCmds (sched : List AutoPoint) (cmds : List AutoCmd) : List AutoPoint :=
  cmds.foldl applyCmd sched

/-- The sidechain-bus automation issued by `_playKick(time)`:
`cancelScheduledValues(time); setValueAtTime(0.3, time);
exponentialRampToValueAtTime(1.0, time + 0.15)`. -/
def kickSidechainCmds (time : ℚ) : List AutoCmd :=
  [.cancel time, .point ⟨time, 0.3, .instant⟩,
   .point ⟨time + 0.15, 1.0, .expRamp⟩]

/-- One invocation of the closure returned by `makeCleanup(...nodes)`:
given the captured `done` flag, returns the updated flag and the nodes
disconnected by this invocation
(`if (done) return; done = true; for (const node of nodes) node.disconnect()`). -/
def cleanupInvoke (nodes : List String) (done : Bool) : Bool × List String :=
  if done then (done, []) else (true, nodes)

/-- `n` successive invocations of one `makeCleanup` closure starting from
flag `done`, e.g. the two `onended` paths of `_playSuperSawBass` firing the
shared callback; returns every node disconnected across the invocations,
in order and with multiplicity. -/
def cleanupRun (nodes : List String) : ℕ → Bool → List String
  | 0, _ => []
  | n + 1, done =>
    let r := cleanupInvoke nodes done
    r.2 ++ cleanupRun nodes n r.1

/-- An automation call issued on the master gain. -/
inductive MasterCmd
  | cancel (t : ℚ)
  | setValue (v t : ℚ)
  | setTarget (v t tc : ℚ)
deriving DecidableEq, Repr

/-- Transport state of `SynthauraBGM`: the fields the scheduler and the
transport operations read and write. `masterAuto` records the automation
calls issued on the master gain, in order. -/
structure BGMState where
  isPlaying : Bool
  bpm : ℚ
  noteLength : ℚ
  nextNoteTime : ℚ
  tick : ℕ
  measure : ℕ
  currentTrack : String
  masterAuto : List MasterCmd
deriving DecidableEq, Repr

/-- The transport state set up by the constructor. -/
def initState : BGMState where
  isPlaying := false
  bpm := 128
  noteLength := 60 / 128 / 4
  nextNoteTime := 0
  tick := 0
  measure := 0
  currentTrack := "ambient"
  masterAuto := []

/-- `start()`: no-op when already playing; otherwise seeds `nextNoteTime`
slightly in the future and ramps the master gain up from silence. -/
def startBGM (s : BGMState) (now : ℚ) : BGMState :=
  if s.isPlaying then s
  else
    let targetVol : ℚ := if s.currentTrack = "mainTheme" then 0.2 else 0.15
    { s with
        isPlaying := true
        nextNoteTime := now + 0.1
        masterAuto := s.masterAuto ++
          [.cancel now, .setValue 0 now, .setTarget targetVol now 0.3] }

/-- `stop()`: no-op when not playing; otherwise clears `isPlaying`, posts
the disarm message to the worker, and ramps the master gain to silence. -/
def stopBGM (s : BGMState) (now : ℚ) : BGMState :=
  if !s.isPlaying then s
  else
    { s with
        isPlaying := false
        masterAuto := s.masterAuto ++ [.cancel now, .setTarget 0 now 0.1] }

/-- The immediate part of `switchTrack(trackName)`: no-op when the track
is unchanged; otherwise only ramps the master gain down (the transport
fields are swapped later, in the deferred `setTimeout` callback). -/
def switchFade (s : BGMState) (trackName : String) (now : ℚ) : BGMState :=
  if s.currentTrack = trackName then s
  else
    { s with
        masterAuto := s.masterAuto ++ [.cancel now, .setTarget 0 now (0.15 / 3)] }

/-- The deferred body of `switchTrack(trackName)`: swaps the track,
resets `tick`/`measure`, reselects the tempo, reseeds `nextNoteTime`, and
ramps the master gain back up. -/
def switchApply (s : BGMState) (trackName : String) (now : ℚ) : BGMState :=
  let bpm : ℚ := if trackName = "mainTheme" then 135 else 90
  let targetVol : ℚ := if trackName = "mainTheme" then 0.2 else 0.15
  { s with
      currentTrack := trackName
      tick := 0
      measure := 0
      bpm := bpm
      noteLength := 60 / bpm / 4
      nextNoteTime := now + 0.05
      masterAuto := s.masterAuto ++ [.cancel now, .setTarget targetVol now 0.3] }

/-- The `_schedule` while-loop, with an explicit iteration bound `fuel`:
while `nextNoteTime < now + lookahead` (lookahead 0.1), invoke the pattern
generator at `nextNoteTime`, add one note length to `nextNoteTime`, and
advance `(tick, measure)`. Returns the final state together with the times
at which the pattern generator was invoked. -/
def scheduleLoop : ℕ → ℚ → BGMState → BGMState × List ℚ
  | 0, _, s => (s, [])
  | fuel + 1, now, s =>
    if s.nextNoteTime < now + 0.1 then
      let t := s.nextNoteTime
      let tb := advance (s.tick, s.measure)
      let s1 := { s with
        nextNoteTime := s.nextNoteTime + s.noteLength
        tick := tb.1
        measure := tb.2 }
      let r := scheduleLoop fuel now s1
      (r.1, t :: r.2)
    else (s, [])

/-- Externally triggered events of the transport: a timer pulse delivered
from the worker (which runs `_schedule`), the public operations, and the
deferred `switchTrack` callback. `now` is the render-clock reading when
the event runs; `fuel` bounds the scheduler's while-loop. -/
inductive BGMEvent
  | pulse (fuel : ℕ) (now : ℚ)
  | startEv (now : ℚ)
  | stopEv (now : ℚ)
  | switchFadeEv (trackName : String) (now : ℚ)
  | switchApplyEv (trackName : String) (now : ℚ)

/-- One event step; returns the pattern-generator invocation times (empty
for non-pulse events). A delivered pulse always runs `_schedule`: the
source installs `this._worker.onmessage = () => this._schedule()` with no
`isPlaying` guard. -/
def stepBGM (s : BGMState) : BGMEvent → BGMState × List ℚ
  | .pulse fuel now => scheduleLoop fuel now s
  | .startEv now => (startBGM s now, [])
  | .stopEv now => (stopBGM s now, [])
  | .switchFadeEv n now => (switchFade s n now, [])
  | .switchApplyEv n now => (switchApply s n now, [])

/-- Run a trace of events, accumulating every pattern-generator
invocation time. -/
def runBGM (s : BGMState) : List BGMEvent → BGMState × List ℚ
  | [] => (s, [])
  | e :: es =>
    let r := stepBGM s e
    let r2 := runBGM r.1 es
    (r2.1, r.2 ++ r2.2)

/-- An event is a scheduler pulse or a `stop()` call (the events across
which `nextNoteTime` never decreases). -/
def pulseOrStop : BGMEvent → Prop
  | .pulse _ _ => True
  | .stopEv _ => True
  | _ => False

/-! ## Helper lemmas -/

lemma inSection_iff (b : ℕ) (s : SectionName) :
    inSection b s ↔
      match s with
      | .INTRO => b < 8
      | .VERSE => 8 ≤ b ∧ b < 16
      | .CHORUS => 16 ≤ b ∧ b < 32
      | .BREAKDOWN => 32 ≤ b ∧ b < 40
      | .BUILD => 40 ≤ b ∧ b < 48
      | .OUTRO => 48 ≤ b := by
  cases s <;>
    simp [inSection, SECTIONS, Nat.cast_lt (α := WithTop ℕ), WithTop.coe_lt_top]

lemma advance_fst_le (s : ℕ × ℕ) : (advance s).1 ≤ 15 := by
  unfold advance
  split
  · simp
  · simp only
    omega

lemma advanceN_fst_le (n : ℕ) (s : ℕ × ℕ) (h : s.1 ≤ 15) :
    (advanceN n s).1 ≤ 15 := by
  induction n generalizing s with
  | zero => exact h
  | succ n ih => exact ih _ (advance_fst_le s)

lemma neg_tmod_left (a b : ℤ) : (-a).tmod b = -(a.tmod b) := by
  rw [Int.tmod_def, Int.tmod_def, Int.neg_tdiv, Int.mul_neg]
  ring

lemma neg_lt_tmod (a : ℤ) {b : ℤ} (hb : 0 < b) : -b < a.tmod b := by
  rcases le_or_lt 0 a with ha | ha
  · have := Int.tmod_nonneg b ha
    omega
  · have h1 : (-a).tmod b < b := Int.tmod_lt_of_pos _ hb
    have h2 : (-a).tmod b = -(a.tmod b) := neg_tmod_left a b
    omega

lemma jsFloorMod_eq_emod (i : ℤ) {n : ℤ} (hn : 0 < n) :
    jsFloorMod i n = i.emod n := by
  unfold jsFloorMod
  have hlt : i.tmod n < n := Int.tmod_lt_of_pos _ hn
  have hgt : -n < i.tmod n := neg_lt_tmod i hn
  rw [Int.tmod_eq_emod (by omega) (by omega)]
  rw [Int.tmod_def]
  have : i - n * i.tdiv n + n = i + n * (1 - i.tdiv n) := by ring
  rw [this]
  exact Int.add_mul_emod_self_left ..

lemma jsFloorMod_add_self (i : ℤ) {n : ℤ} (hn : 0 < n) :
    jsFloorMod (i + n) n = jsFloorMod i n := by
  rw [jsFloorMod_eq_emod _ hn, jsFloorMod_eq_emod _ hn]
  have : i + n = i + n * 1 := by ring
  rw [this]
  exact Int.add_mul_emod_self_left ..

lemma fdiv_add_self (i : ℤ) {n : ℤ} (hn : 0 < n) :
    (i + n).fdiv n = i.fdiv n + 1 := by
  rw [Int.fdiv_eq_ediv _ hn.le, Int.fdiv_eq_ediv _ hn.le]
  have : i + n = i + 1 * n := by ring
  rw [this, Int.add_mul_ediv_right _ _ (by omega)]

/-- The octave law for `getFreq`, for any scale the engine defines:
shifting the index by the scale length doubles the frequency. -/
lemma getFreq_add_length (name : String) (s : List ℚ) (i : ℤ)
    (hs : scales name = some s) (hlen : 0 < s.length) :
    getFreq name (i + s.length) = 2 * getFreq name i := by
  have hn : (0 : ℤ) < (s.length : ℤ) := by exact_mod_cast hlen
  unfold getFreq
  rw [hs]
  simp only
  rw [jsFloorMod_add_self i hn, fdiv_add_self i hn,
    zpow_add_one₀ (two_ne_zero)]
  ring

lemma scheduleLoop_nextNoteTime_mono (fuel : ℕ) (now : ℚ) (s : BGMState)
    (h : 0 ≤ s.noteLength) :
    s.nextNoteTime ≤ (scheduleLoop fuel now s).1.nextNoteTime := by
  induction fuel generalizing s with
  | zero => simp [scheduleLoop]
  | succ fuel ih =>
    rw [scheduleLoop]
    split
    · simp only
      refine le_trans ?_ (ih _ h)
      simp only
      linarith
    · simp

lemma scheduleLoop_noteLength (fuel : ℕ) (now : ℚ) (s : BGMState) :
    (scheduleLoop fuel now s).1.noteLength = s.noteLength := by
  induction fuel generalizing s with
  | zero => simp [scheduleLoop]
  | succ fuel ih =>
    rw [scheduleLoop]
    split
    · simp only
      rw [ih]
    · simp

lemma stopBGM_nextNoteTime (s : BGMState) (now : ℚ) :
    (stopBGM s now).nextNoteTime = s.nextNoteTime := by
  unfold stopBGM; split <;> simp

lemma stopBGM_noteLength (s : BGMState) (now : ℚ) :
    (stopBGM s now).noteLength = s.noteLength := by
  unfold stopBGM; split <;> simp


/-! ## Claim theorems -/

lemma inSection_INTRO (b : ℕ) : inSection b .INTRO ↔ b < 8 := by
  simp [inSection, SECTIONS, Nat.cast_lt (α := WithTop ℕ)]

lemma inSection_VERSE (b : ℕ) : inSection b .VERSE ↔ 8 ≤ b ∧ b < 16 := by
  simp [inSection, SECTIONS, Nat.cast_lt (α := WithTop ℕ)]

lemma inSection_CHORUS (b : ℕ) : inSection b .CHORUS ↔ 16 ≤ b ∧ b < 32 := by
  simp [inSection, SECTIONS, Nat.cast_lt (α := WithTop ℕ)]

lemma inSection_BREAKDOWN (b : ℕ) : inSection b .BREAKDOWN ↔ 32 ≤ b ∧ b < 40 := by
  simp [inSection, SECTIONS, Nat.cast_lt (α := WithTop ℕ)]

lemma inSection_BUILD (b : ℕ) : inSection b .BUILD ↔ 40 ≤ b ∧ b < 48 := by
  simp [inSection, SECTIONS, Nat.cast_lt (α := WithTop ℕ)]

lemma inSection_OUTRO (b : ℕ) : inSection b .OUTRO ↔ 48 ≤ b := by
  simp [inSection, SECTIONS, WithTop.coe_lt_top]

lemma inSection_unique (b : ℕ) (t u : SectionName)
    (ht : inSection b t) (hu : inSection b u) : t = u := by
  cases t <;> cases u <;>
    first
      | rfl
      | (exfalso
         simp only [inSection_INTRO, inSection_VERSE, inSection_CHORUS,
           inSection_BREAKDOWN, inSection_BUILD, inSection_OUTRO] at ht hu
         omega)

/-- C3: every bar index lies in exactly one of the six sections: the section
ranges partition the non-negative integers. -/
theorem sections_partition (b : ℕ) : ∃! s : SectionName, inSection b s := by
  obtain h | h | h | h | h | h :
      b < 8 ∨ (8 ≤ b ∧ b < 16) ∨ (16 ≤ b ∧ b < 32) ∨ (32 ≤ b ∧ b < 40)
        ∨ (40 ≤ b ∧ b < 48) ∨ 48 ≤ b := by omega
  · exact ⟨.INTRO, (inSection_INTRO b).mpr h,
      fun t ht => inSection_unique b t .INTRO ht ((inSection_INTRO b).mpr h)⟩
  · exact ⟨.VERSE, (inSection_VERSE b).mpr h,
      fun t ht => inSection_unique b t .VERSE ht ((inSection_VERSE b).mpr h)⟩
  · exact ⟨.CHORUS, (inSection_CHORUS b).mpr h,
      fun t ht => inSection_unique b t .CHORUS ht ((inSection_CHORUS b).mpr h)⟩
  · exact ⟨.BREAKDOWN, (inSection_BREAKDOWN b).mpr h,
      fun t ht => inSection_unique b t .BREAKDOWN ht ((inSection_BREAKDOWN b).mpr h)⟩
  · exact ⟨.BUILD, (inSection_BUILD b).mpr h,
      fun t ht => inSection_unique b t .BUILD ht ((inSection_BUILD b).mpr h)⟩
  · exact ⟨.OUTRO, (inSection_OUTRO b).mpr h,
      fun t ht => inSection_unique b t .OUTRO ht ((inSection_OUTRO b).mpr h)⟩

/-- Witness for `sections_partition` at bar 20 (CHORUS). -/
theorem sections_partition_witness : ∃! s : SectionName, inSection 20 s :=
  sections_partition 20

/-- C2: for every tick value t in 0..15 and every bar value b, the
scheduler's advance step applied 16 times returns the tick to t and
increases the bar by exactly one, and the tick never leaves 0..15. -/
theorem advance_sixteen_cycles (t b : ℕ) (ht : t ≤ 15) :
    advanceN 16 (t, b) = (t, b + 1) ∧ ∀ n, (advanceN n (t, b)).1 ≤ 15 := by
  constructor
  · interval_cases t <;> simp [advanceN, advance]
  · intro n
    exact advanceN_fst_le n (t, b) ht

/-- Witness for `advance_sixteen_cycles` at tick 5, bar 3. -/
theorem advance_sixteen_cycles_witness :
    advanceN 16 (5, 3) = (5, 4) ∧ ∀ n, (advanceN n (5, 3)).1 ≤ 15 :=
  advance_sixteen_cycles 5 3 (by norm_num)

/-- C4: for every scale the engine defines, shifting the index by the scale
length multiplies the frequency by exactly 2 (also at negative indices), and
on the main-theme scale `getFreq('mainTheme', 7) = 261.62` and
`getFreq('mainTheme', -1) = 116.54`. -/
theorem getFreq_octave_doubling :
    (∀ (name : String) (s : List ℚ) (i : ℤ), scales name = some s →
      getFreq name (i + s.length) = 2 * getFreq name i)
    ∧ getFreq "mainTheme" 7 = 261.62
    ∧ getFreq "mainTheme" (-1) = 116.54 := by
  refine ⟨?_, ?_, ?_⟩
  · intro name s i hs
    have hlen : 0 < s.length := by
      unfold scales at hs
      split_ifs at hs
      all_goals injection hs with h
      all_goals subst h
      all_goals decide
    exact getFreq_add_length name s i hs hlen
  · have h1 : jsFloorMod 7 7 = 0 := by decide
    have h2 : (7 : ℤ).fdiv 7 = 1 := by decide
    norm_num [getFreq, scales, mainThemeScale, h1, h2, List.getD]
  · have h1 : jsFloorMod (-1) 7 = 6 := by decide
    have h2 : ((-1 : ℤ)).fdiv 7 = -1 := by decide
    have h3 : (6 : ℤ).toNat = 6 := by decide
    norm_num [getFreq, scales, mainThemeScale, h1, h2, h3, List.getD]

/-- Witness for `getFreq_octave_doubling` on the main-theme scale at index 0. -/
theorem getFreq_octave_doubling_witness :
    getFreq "mainTheme" ((0 : ℤ) + (mainThemeScale.length : ℤ)) =
      2 * getFreq "mainTheme" 0 :=
  getFreq_octave_doubling.1 "mainTheme" mainThemeScale 0 (by norm_num [scales])

/-- C5 counterexample: at bar 0 (INTRO) and tick 0, tick mod 4 = 0 and the
bar is not in BREAKDOWN, yet `_playDrums` emits no kick (it returns early
for bars before VERSE), so the claimed iff fails. -/
theorem kick_claim_false_at_intro :
    ¬ (kickAt 0 0 = true ↔ (0 % 4 = 0 ∧ ¬ inSection 0 .BREAKDOWN)) := by
  decide

/-- C5 amended: a kick is emitted at (t, b) iff t mod 4 = 0, b is at or
after the VERSE start (bar 8), and b is not inside BREAKDOWN. -/
theorem kick_iff_fourth_tick (t b : ℕ) :
    kickAt t b = true ↔
      (t % 4 = 0 ∧ (SECTIONS .VERSE).start ≤ b ∧ ¬ inSection b .BREAKDOWN) := by
  unfold kickAt
  split
  · rename_i h
    simp only [Bool.false_eq_true, false_iff]
    rintro ⟨h1, h2, h3⟩
    revert h h2
    simp [SECTIONS]
  · rename_i h
    revert h
    simp [SECTIONS, inSection_iff, Nat.cast_lt (α := WithTop ℕ), decide_eq_true_eq]
    omega

/-- Witness for `kick_iff_fourth_tick` at tick 0, bar 8. -/
theorem kick_iff_fourth_tick_witness :
    kickAt 0 8 = true ↔
      (0 % 4 = 0 ∧ (SECTIONS .VERSE).start ≤ 8 ∧ ¬ inSection 8 .BREAKDOWN) :=
  kick_iff_fourth_tick 0 8

/-- C6: in CHORUS or OUTRO the lead plays the fixed 16-step melody: silence
markers emit no voice; any other tick emits the melody degree's scale
frequency, doubled (exactly one octave up) when the bar is in OUTRO. -/
theorem lead_melody_chorus_outro (r t b : ℕ) (_ht : t ≤ 15)
    (hb : inSection b .CHORUS ∨ inSection b .OUTRO) :
    ((melody[t]?).getD (-1) = -1 → leadVoice r t b = none)
    ∧ ((melody[t]?).getD (-1) ≠ -1 →
        leadVoice r t b =
          some ((if inSection b .OUTRO then 2 else 1) *
            getFreq "mainTheme" ((melody[t]?).getD (-1)))) := by
  have hcond : ((SECTIONS .CHORUS).start ≤ b ∧
      (b : WithTop ℕ) < (SECTIONS .CHORUS).stop) ∨ (SECTIONS .OUTRO).start ≤ b := by
    rcases hb with h | h
    · exact Or.inl h
    · exact Or.inr h.1
  unfold leadVoice
  rw [if_pos hcond]
  constructor
  · intro hm
    simp [hm]
  · intro hm
    simp only [ne_eq]
    rw [if_pos hm]
    by_cases ho : (SECTIONS .OUTRO).start ≤ b
    · have hoi : inSection b .OUTRO := (inSection_iff b .OUTRO).mpr ho
      rw [if_pos ho, if_pos hoi]
      have h2 : getFreq "mainTheme" ((melody[t]?).getD (-1) + 7) =
          2 * getFreq "mainTheme" ((melody[t]?).getD (-1)) := by
        have h3 := getFreq_add_length "mainTheme" mainThemeScale
          ((melody[t]?).getD (-1)) (by norm_num [scales]) (by norm_num [mainThemeScale])
        norm_num [mainThemeScale] at h3
        exact h3
      rw [h2]
    · have hoi : ¬ inSection b .OUTRO := fun hc => ho hc.1
      rw [if_neg ho, if_neg hoi]
      norm_num

/-- Witness for `lead_melody_chorus_outro` at bar 20 (CHORUS), tick 0. -/
theorem lead_melody_chorus_outro_witness :
    ((melody[0]?).getD (-1) = -1 → leadVoice 0 0 20 = none)
    ∧ ((melody[0]?).getD (-1) ≠ -1 →
        leadVoice 0 0 20 =
          some ((if inSection 20 .OUTRO then 2 else 1) *
            getFreq "mainTheme" ((melody[0]?).getD (-1)))) :=
  lead_melody_chorus_outro 0 0 20 (by norm_num) (Or.inl (by decide))

/-- C7: `_playKick(T)` issues exactly cancel(T), set-floor(0.3 at T),
exp-ramp(to 1.0 by T+0.15) on the sidechain gain; for two kicks 100 ms
apart both duck floors survive, the first kick's pending recovery ramp is
removed by the second kick's cancel, and only the second recovery ramp
remains pending. -/
theorem kick_sidechain_sequence (T1 T2 : ℚ) (h : T2 = T1 + 0.1) :
    kickSidechainCmds T1 =
      [.cancel T1, .point ⟨T1, 0.3, .instant⟩, .point ⟨T1 + 0.15, 1.0, .expRamp⟩]
    ∧ applyCmds [] (kickSidechainCmds T1 ++ kickSidechainCmds T2) =
      [⟨T1, 0.3, .instant⟩, ⟨T2, 0.3, .instant⟩, ⟨T2 + 0.15, 1.0, .expRamp⟩]
    ∧ AutoPoint.mk (T1 + 0.15) 1.0 .expRamp ∉
        applyCmds [] (kickSidechainCmds T1 ++ kickSidechainCmds T2) := by
  subst h
  have hf1 : T1 < T1 + (0.1 : ℚ) := by norm_num
  have hf2 : ¬ (T1 + (0.15 : ℚ) < T1 + (0.1 : ℚ)) := by norm_num
  refine ⟨rfl, ?_, ?_⟩
  · simp [applyCmds, applyCmd, kickSidechainCmds, List.filter, hf1, hf2]
  · simp [applyCmds, applyCmd, kickSidechainCmds, List.filter, hf1, hf2,
      AutoPoint.mk.injEq]
    norm_num

/-- Witness for `kick_sidechain_sequence` with kicks at 0 and 0.1. -/
theorem kick_sidechain_sequence_witness :
    kickSidechainCmds 0 =
      [.cancel 0, .point ⟨0, 0.3, .instant⟩, .point ⟨(0 : ℚ) + 0.15, 1.0, .expRamp⟩]
    ∧ applyCmds [] (kickSidechainCmds 0 ++ kickSidechainCmds (1/10)) =
      [⟨0, 0.3, .instant⟩, ⟨1/10, 0.3, .instant⟩, ⟨(1 : ℚ)/10 + 0.15, 1.0, .expRamp⟩]
    ∧ AutoPoint.mk ((0 : ℚ) + 0.15) 1.0 .expRamp ∉
        applyCmds [] (kickSidechainCmds 0 ++ kickSidechainCmds (1/10)) :=
  kick_sidechain_sequence 0 (1/10) (by norm_num)

/-- C8: the `makeCleanup` closure is idempotent: across any n ≥ 1
invocations (e.g. both `onended` paths of the super-saw bass firing the
shared callback) the owned nodes are disconnected exactly once, and every
invocation after the first disconnects nothing. -/
theorem cleanup_releases_once (nodes : List String) (n : ℕ) (hn : 1 ≤ n) :
    cleanupRun nodes n false = nodes ∧ ∀ m, cleanupRun nodes m true = [] := by
  have hdone : ∀ m, cleanupRun nodes m true = [] := by
    intro m
    induction m with
    | zero => rfl
    | succ m ih => simp [cleanupRun, cleanupInvoke, ih]
  obtain ⟨k, rfl⟩ : ∃ k, n = k + 1 := ⟨n - 1, by omega⟩
  exact ⟨by simp [cleanupRun, cleanupInvoke, hdone], hdone⟩

/-- Witness for `cleanup_releases_once`: the super-saw bass voice's four
nodes, with the shared callback invoked twice. -/
theorem cleanup_releases_once_witness :
    cleanupRun ["osc1", "osc2", "filter", "gain"] 2 false =
        ["osc1", "osc2", "filter", "gain"]
      ∧ ∀ m, cleanupRun ["osc1", "osc2", "filter", "gain"] m true = [] :=
  cleanup_releases_once ["osc1", "osc2", "filter", "gain"] 2 (by norm_num)

/-- C1 counterexample: in the run start at 0, pulse at 0.01, stop at 0.02,
start at 0.03, the final `nextNoteTime` (0.13) is strictly below the value
it had right after the pulse (139/640 ≈ 0.2172): `nextNoteTime` is not
monotonically non-decreasing across interleavings that include `start()`. -/
theorem nextNoteTime_decreases_after_restart :
    (runBGM initState [.startEv 0, .pulse 4 (1/100), .stopEv (2/100),
      .startEv (3/100)]).1.nextNoteTime
    < (runBGM initState [.startEv 0, .pulse 4 (1/100)]).1.nextNoteTime := by
  norm_num [runBGM, stepBGM, startBGM, stopBGM, scheduleLoop, initState, advance]

/-- C1 amended: across scheduler pulses and `stop()` alone (no intervening
`start()`/`switchTrack()`), `nextNoteTime` is monotonically non-decreasing,
so no voice is scheduled earlier than one already scheduled; `start()` after
a quick `stop()` (and the deferred phase of `switchTrack()`) may rewind it. -/
theorem nextNoteTime_monotone_pulse_stop (s : BGMState) (tr : List BGMEvent)
    (hlen : 0 ≤ s.noteLength) (htr : ∀ e ∈ tr, pulseOrStop e) :
    s.nextNoteTime ≤ (runBGM s tr).1.nextNoteTime := by
  induction tr generalizing s with
  | nil => simp [runBGM]
  | cons e es ih =>
    rw [runBGM]
    simp only
    have hes : ∀ e2 ∈ es, pulseOrStop e2 :=
      fun e2 he2 => htr e2 (List.mem_cons_of_mem _ he2)
    cases e with
    | pulse f now =>
      have h1 := scheduleLoop_nextNoteTime_mono f now s hlen
      have h2 : 0 ≤ (scheduleLoop f now s).1.noteLength := by
        rw [scheduleLoop_noteLength]
        exact hlen
      simp only [stepBGM]
      exact le_trans h1 (ih _ h2 hes)
    | stopEv now =>
      simp only [stepBGM]
      have h2 : 0 ≤ (stopBGM s now).noteLength := by
        rw [stopBGM_noteLength]
        exact hlen
      have h1 := ih (stopBGM s now) h2 hes
      rw [stopBGM_nextNoteTime] at h1
      exact h1
    | startEv now =>
      exact absurd (htr _ (List.mem_cons_self _ _)) (by simp [pulseOrStop])
    | switchFadeEv n now =>
      exact absurd (htr _ (List.mem_cons_self _ _)) (by simp [pulseOrStop])
    | switchApplyEv n now =>
      exact absurd (htr _ (List.mem_cons_self _ _)) (by simp [pulseOrStop])

/-- Witness for `nextNoteTime_monotone_pulse_stop`: a pulse then a stop from
the constructor state. -/
theorem nextNoteTime_monotone_pulse_stop_witness :
    initState.nextNoteTime ≤
      (runBGM initState [.pulse 2 0, .stopEv 1]).1.nextNoteTime :=
  nextNoteTime_monotone_pulse_stop initState [.pulse 2 0, .stopEv 1]
    (by norm_num [initState])
    (by
      intro e he
      simp only [List.mem_cons, List.mem_singleton] at he
      rcases he with rfl | rfl | he
      · exact trivial
      · exact trivial
      · cases he)

/-- C9 counterexample: after `stop()` at 0.02 the engine is stopped, yet a
pulse delivered at 0.13 is processed by `_schedule` (there is no
`isPlaying` guard) and invokes the pattern generator, scheduling a voice at
139/640: delivered pulses are not ignored after stop. -/
theorem pulse_after_stop_not_ignored :
    (runBGM initState
        [.startEv 0, .pulse 4 (1/100), .stopEv (2/100)]).1.isPlaying = false
    ∧ (runBGM initState
        [.startEv 0, .pulse 4 (1/100), .stopEv (2/100)]).2 = [1/10]
    ∧ (runBGM initState [.startEv 0, .pulse 4 (1/100), .stopEv (2/100),
        .pulse 4 (13/100)]).2 = [1/10, 139/640] := by
  norm_num [runBGM, stepBGM, startBGM, stopBGM, scheduleLoop, initState, advance]

lemma scheduleLoop_noop (f : ℕ) (now : ℚ) (s : BGMState)
    (h : now + 0.1 ≤ s.nextNoteTime) : scheduleLoop f now s = (s, []) := by
  cases f with
  | zero => rfl
  | succ f =>
    rw [scheduleLoop]
    rw [if_neg (by linarith)]

/-- C9 amended: `stop()` leaves `nextNoteTime` unchanged, and a pulse
delivered after `stop()` schedules nothing only while the render clock is
at most `nextNoteTime` minus the lookahead; later pulses are processed
normally (the scheduler has no `isPlaying` guard). -/
theorem stopped_pulse_within_lookahead (s : BGMState) (f : ℕ) (now t : ℚ)
    (h : now + 0.1 ≤ s.nextNoteTime) :
    (stopBGM s t).nextNoteTime = s.nextNoteTime
    ∧ stepBGM (stopBGM s t) (.pulse f now) = (stopBGM s t, []) := by
  refine ⟨stopBGM_nextNoteTime s t, ?_⟩
  show scheduleLoop f now (stopBGM s t) = (stopBGM s t, [])
  apply scheduleLoop_noop
  rw [stopBGM_nextNoteTime]
  exact h

/-- Witness for `stopped_pulse_within_lookahead`: the state right after
`start()` at 0, stopped at 0.05, pulsed again at 0. -/
theorem stopped_pulse_within_lookahead_witness :
    (stopBGM (startBGM initState 0) (1/20)).nextNoteTime =
        (startBGM initState 0).nextNoteTime
    ∧ stepBGM (stopBGM (startBGM initState 0) (1/20)) (.pulse 3 0) =
        (stopBGM (startBGM initState 0) (1/20), []) :=
  stopped_pulse_within_lookahead (startBGM initState 0) 3 0 (1/20)
    (by norm_num [startBGM, initState])

/-- C10: `stop()` then `start()` preserves the song position: neither
operation changes `tick`, `measure`, `currentTrack`, `bpm` or `noteLength`;
`stop()` also leaves `nextNoteTime` unchanged. -/
theorem stop_start_frame (s : BGMState) (t1 t2 : ℚ) :
    ((startBGM (stopBGM s t1) t2).tick = s.tick
      ∧ (startBGM (stopBGM s t1) t2).measure = s.measure
      ∧ (startBGM (stopBGM s t1) t2).currentTrack = s.currentTrack
      ∧ (startBGM (stopBGM s t1) t2).bpm = s.bpm
      ∧ (startBGM (stopBGM s t1) t2).noteLength = s.noteLength)
    ∧ ((stopBGM s t1).tick = s.tick ∧ (stopBGM s t1).measure = s.measure
      ∧ (stopBGM s t1).currentTrack = s.currentTrack
      ∧ (stopBGM s t1).bpm = s.bpm
      ∧ (stopBGM s t1).noteLength = s.noteLength
      ∧ (stopBGM s t1).nextNoteTime = s.nextNoteTime)
    ∧ ((startBGM s t2).tick = s.tick ∧ (startBGM s t2).measure = s.measure
      ∧ (startBGM s t2).currentTrack = s.currentTrack
      ∧ (startBGM s t2).bpm = s.bpm
      ∧ (startBGM s t2).noteLength = s.noteLength) := by
  cases hp : s.isPlaying <;> simp [startBGM, stopBGM, hp]

end Synthaura
